import Mathlib

/-!
Shallow embedding of the TabGen finger-joint generator
(src/core/managers/fingermanager.py and src/core/fusion/sketch/sketch.py).

The code is an orchestration layer over a host CAD kernel: every method
issues a sequence of host API calls.  We model each method as a pure
function returning the list of host calls it issues (the trace) together
with the locally raised error, if any.  Numeric joint parameters are
rationals; host object references that can be absent are `Option`s whose
payload carries the host `isValid` flag.
-/

namespace TabGen

/-- Orientation of a geometric constraint or of a distance dimension
(`DimensionOrientations.HorizontalDimensionOrientation` /
`VerticalDimensionOrientation`, and `addHorizontal` / `addVertical`). -/
inductive Orient where
  | horizontal
  | vertical
deriving DecidableEq, Repr

/-- Exchange horizontal and vertical. -/
def Orient.swap : Orient → Orient
  | .horizontal => .vertical
  | .vertical => .horizontal

/-- Extent given to an extrude feature: a finite signed distance
(`setDistanceExtent`) or an extent through the whole body. -/
inductive ExtrudeExtent where
  | distanceExtent (d : ℚ)
  | throughAllExtent
deriving DecidableEq, Repr

/-- Host calls issued by `FingerManager`.  The `String` arguments record the
feature name or which sketch entity the call applies to. -/
inductive Ev where
  | addRect (tag : String)
  | addOrientConstraint (o : Orient) (line : String)
  | addDistanceDim (dim : String) (o : Orient)
  | addCoincident (a b : String)
  | extrudeCut (name : String) (extent : ExtrudeExtent)
  | patternCreateInput (quantity distance : ℚ)
  | patternAdd (name : String)
  | setDirectionTwo (squantity dist : ℚ)
  | messageBox (secondaryValid : Bool)
  | modifierCall
  | timelineGroup (name : String)
deriving DecidableEq, Repr

/-- Errors a `FingerManager` method can raise locally: the exception
`PrimaryAxisMissing` defined by the project, and the interpreter error
`AttributeError` (attribute access on `None`). -/
inductive Err where
  | primaryAxisMissing
  | attributeError
deriving DecidableEq, Repr

/-- Host reference to an axis edge (`border.reference_line`, or the
perpendicular edge used as the secondary pattern direction), with the host
validity flag. -/
structure AxisRef where
  isValid : Bool
deriving DecidableEq, Repr

/-- Numeric joint parameters produced by the `automatic` / `user_defined`
strategy (`self.params`). -/
structure FingerParams where
  start : ℚ
  finger_length : ℚ
  notches : ℚ
  pattern_distance : ℚ
  distance : ℚ
  offset : ℚ
  depth : ℚ
deriving DecidableEq, Repr

/-- The command inputs read by `FingerManager.draw` (`self.inputs`). -/
structure Inputs where
  tab_first : Bool
  parametric : Bool
  interior : ℚ
deriving DecidableEq, Repr

/-- The border rectangle as seen by `FingerManager` (`self.border`): only its
orientation flag is branched on. -/
structure Border where
  is_vertical : Bool
deriving DecidableEq, Repr

/-- State of a `FingerManager`: its name, parameters, inputs and border,
together with the primary pattern axis (`self.border.reference_line`) and the
secondary pattern axis (the perpendicular edge computed in `draw`), both
host references that may be absent or invalidated. -/
structure Mgr where
  name : String
  params : FingerParams
  inputs : Inputs
  border : Border
  primary : Option AxisRef
  secondary : Option AxisRef
deriving DecidableEq, Repr

/-- The Python builtin `abs` on a number, written executably. -/
def pyAbs (q : ℚ) : ℚ := if q < 0 then -q else q

/-- Trace of `FingerManager.extrude` (fingermanager.py lines 261-275):
`dist = vi.createByString(str(-abs(self.params.depth*10)))`, then
`cut_input.setDistanceExtent(False, dist)` and `extrudes.add(cut_input)`
with `cut.name = name`. -/
def extrude (params : FingerParams) (name : String) : List Ev :=
  [Ev.extrudeCut name (ExtrudeExtent.distanceExtent (-pyAbs (params.depth * 10)))]

/-- Trace and outcome of `FingerManager.duplicate` (fingermanager.py lines
232-259).  `raise PrimaryAxisMissing` when `not primary or not
primary.isValid`; otherwise build the pattern input, set the second
direction when `self.params.distance > 0 and secondary and
secondary.isValid`, else call `self.ui.messageBox(... secondary.isValid)` —
which dereferences `secondary` and so raises `AttributeError` when the
secondary reference is `None` — and finally `patterns.add(input_)`. -/
def duplicate (params : FingerParams) (name : String)
    (quantity distance squantity : ℚ)
    (primary secondary : Option AxisRef) : List Ev × Option Err :=
  match primary with
  | none => ([], some Err.primaryAxisMissing)
  | some p =>
    if p.isValid = false then
      ([], some Err.primaryAxisMissing)
    else if 0 < params.distance ∧ secondary.any AxisRef.isValid = true then
      ([Ev.patternCreateInput quantity distance,
        Ev.setDirectionTwo squantity (params.distance - params.depth),
        Ev.patternAdd name], none)
    else
      match secondary with
      | none => ([Ev.patternCreateInput quantity distance], some Err.attributeError)
      | some s => ([Ev.patternCreateInput quantity distance,
                    Ev.messageBox s.isValid, Ev.patternAdd name], none)

/-- Trace of `FingerManager.constrain_finger` (fingermanager.py lines
277-335): the vertical branch adds vertical constraints to the bottom/top
lines, horizontal constraints to the left/right lines, two
`VerticalDimension` distance dimensions and two coincidences; the
horizontal branch swaps every orientation and uses the other pair of
coincidence anchors. -/
def constrain_finger (is_vertical : Bool) : List Ev :=
  if is_vertical then
    [Ev.addOrientConstraint Orient.vertical "finger.bottom.line",
     Ev.addOrientConstraint Orient.vertical "finger.top.line",
     Ev.addOrientConstraint Orient.horizontal "finger.left.line",
     Ev.addOrientConstraint Orient.horizontal "finger.right.line",
     Ev.addDistanceDim "finger_dimension" Orient.vertical,
     Ev.addDistanceDim "offset_dimension" Orient.vertical,
     Ev.addCoincident "finger.bottom.right.point" "border.right.line",
     Ev.addCoincident "finger.top.left.point" "border.left.line"]
  else
    [Ev.addOrientConstraint Orient.horizontal "finger.bottom.line",
     Ev.addOrientConstraint Orient.horizontal "finger.top.line",
     Ev.addOrientConstraint Orient.vertical "finger.left.line",
     Ev.addOrientConstraint Orient.vertical "finger.right.line",
     Ev.addDistanceDim "finger_dimension" Orient.horizontal,
     Ev.addDistanceDim "offset_dimension" Orient.horizontal,
     Ev.addCoincident "finger.bottom.left.point" "border.bottom.line",
     Ev.addCoincident "finger.top.right.point" "border.top.line"]

/-- Trace of `FingerManager.constrain_horizontal_corners` (fingermanager.py
lines 109-151): for each corner a `HorizontalDimension` distance dimension,
two coincidences, horizontal constraints on bottom/top and vertical
constraints on left/right. -/
def constrain_horizontal_corners : List Ev :=
  [Ev.addDistanceDim "left_dimension" Orient.horizontal,
   Ev.addCoincident "left_corner.bottom.left.point" "border.bottom.left.point",
   Ev.addCoincident "left_corner.top.right.point" "border.top.line",
   Ev.addOrientConstraint Orient.horizontal "left_corner.bottom.line",
   Ev.addOrientConstraint Orient.horizontal "left_corner.top.line",
   Ev.addOrientConstraint Orient.vertical "left_corner.left.line",
   Ev.addOrientConstraint Orient.vertical "left_corner.right.line",
   Ev.addDistanceDim "right_dimension" Orient.horizontal,
   Ev.addCoincident "right_corner.bottom.left.point" "border.bottom.line",
   Ev.addCoincident "right_corner.top.right.point" "border.top.right.point",
   Ev.addOrientConstraint Orient.horizontal "right_corner.bottom.line",
   Ev.addOrientConstraint Orient.horizontal "right_corner.top.line",
   Ev.addOrientConstraint Orient.vertical "right_corner.left.line",
   Ev.addOrientConstraint Orient.vertical "right_corner.right.line"]

/-- Trace of `FingerManager.constrain_vertical_corners` (fingermanager.py
lines 153-195), transcribed from its own body: it adds the same
`HorizontalDimension` dimensions, the same coincidences and the same
horizontal/vertical constraints as the horizontal-corner routine. -/
def constrain_vertical_corners : List Ev :=
  [Ev.addDistanceDim "left_dimension" Orient.horizontal,
   Ev.addCoincident "left_corner.bottom.left.point" "border.bottom.left.point",
   Ev.addCoincident "left_corner.top.right.point" "border.top.line",
   Ev.addOrientConstraint Orient.horizontal "left_corner.bottom.line",
   Ev.addOrientConstraint Orient.horizontal "left_corner.top.line",
   Ev.addOrientConstraint Orient.vertical "left_corner.left.line",
   Ev.addOrientConstraint Orient.vertical "left_corner.right.line",
   Ev.addDistanceDim "right_dimension" Orient.horizontal,
   Ev.addCoincident "right_corner.bottom.left.point" "border.bottom.line",
   Ev.addCoincident "right_corner.top.right.point" "border.top.right.point",
   Ev.addOrientConstraint Orient.horizontal "right_corner.bottom.line",
   Ev.addOrientConstraint Orient.horizontal "right_corner.top.line",
   Ev.addOrientConstraint Orient.vertical "right_corner.left.line",
   Ev.addOrientConstraint Orient.vertical "right_corner.right.line"]

/-- Trace and outcome of `FingerManager.draw_finger` (fingermanager.py lines
212-230): draw the finger rectangle, constrain it, extrude-cut the profile
(named `... Finger Cut Extrude`), then duplicate (named `... Finger
Duplicate Pattern`) with `quantity = notches`, `distance =
pattern_distance`, `squantity = interior + 2`. -/
def draw_finger (m : Mgr) : List Ev × Option Err :=
  let dup := duplicate m.params (m.name ++ " Finger Duplicate Pattern")
      m.params.notches m.params.pattern_distance (m.inputs.interior + 2)
      m.primary m.secondary
  (Ev.addRect "finger" :: constrain_finger m.border.is_vertical
      ++ extrude m.params (m.name ++ " Finger Cut Extrude") ++ dup.1,
   dup.2)

/-- Trace and outcome of `FingerManager.draw_corner` (fingermanager.py lines
92-107): draw the two corner rectangles, extrude-cut them (named
`... Corner Cut Extrude`), duplicate (named `... Corner Duplicate Pattern`,
quantity 1, distance 0, squantity 2), then constrain the corners using the
vertical or horizontal routine according to `border.is_vertical`. -/
def draw_corner (m : Mgr) : List Ev × Option Err :=
  let dup := duplicate m.params (m.name ++ " Corner Duplicate Pattern")
      1 0 2 m.primary m.secondary
  match dup.2 with
  | some e =>
      ([Ev.addRect "left_corner", Ev.addRect "right_corner"]
        ++ extrude m.params (m.name ++ " Corner Cut Extrude") ++ dup.1, some e)
  | none =>
      ([Ev.addRect "left_corner", Ev.addRect "right_corner"]
        ++ extrude m.params (m.name ++ " Corner Cut Extrude") ++ dup.1
        ++ (if m.border.is_vertical then constrain_vertical_corners
            else constrain_horizontal_corners),
       none)

/-- Trace and outcome of `FingerManager.draw` (fingermanager.py lines
54-90): `draw_finger` first; then `draw_corner` when `self.params.offset`
is truthy and `not self.inputs.tab_first`; then `self.modifier(...)` when
`not self.inputs.parametric`; finally the timeline group named
`... Finger Group` is created.  A raised exception propagates, keeping the
events issued so far. -/
def draw (m : Mgr) : List Ev × Option Err :=
  let f := draw_finger m
  match f.2 with
  | some e => (f.1, some e)
  | none =>
    let c := if m.params.offset ≠ 0 ∧ m.inputs.tab_first = false
             then draw_corner m else ([], none)
    match c.2 with
    | some e => (f.1 ++ c.1, some e)
    | none =>
      (f.1 ++ c.1
        ++ (if m.inputs.parametric = false then [Ev.modifierCall] else [])
        ++ [Ev.timelineGroup (m.name ++ " Finger Group")],
       none)

/-- A sketch point with rational coordinates (`adsk.core.Point3D`). -/
structure Point3 where
  x : ℚ
  y : ℚ
  z : ℚ
deriving DecidableEq, Repr

/-- Computation of `Sketch.offset_point` (sketch.py lines 64-74): when the
border is vertical, `xoffset = width` and `yoffset = length`; otherwise
`yoffset = width` and `xoffset = length`; the result is
`Point3D.create(point.x + xoffset, point.y + yoffset, point.z)`. -/
def offset_point (is_vertical : Bool) (point : Point3) (length width : ℚ) : Point3 :=
  if is_vertical then
    { x := point.x + width, y := point.y + length, z := point.z }
  else
    { x := point.x + length, y := point.y + width, z := point.z }

/-- Host calls issued by `Sketch.__init__`. -/
inductive SkEv where
  | sketchAdd
  | setSketchName (n : String)
  | setConstruction (lineIdx : Nat)
  | projectEdge (edgeIdx : Nat)
deriving DecidableEq, Repr

/-- Wrapper around four sketch lines, identified here by their indices in
the line collection of the sketch.  Modelled from the spec: the `Rectangle`
class (src/core/fusion/sketch/rectangle.py) is not under src; per the spec
it tracks four named sketch lines and derived corner points. -/
structure RectWrap where
  lines : List Nat
deriving DecidableEq, Repr

/-- Modelled from the spec: the corner reference points a `Rectangle`
derives from its four lines (rectangle.py is not under src). -/
def RectWrap.reference_points (r : RectWrap) : List Nat := r.lines

/-- Modelled from the spec: the reference line a `Rectangle` designates
among its four lines (rectangle.py is not under src). -/
def RectWrap.reference_line (r : RectWrap) : Option Nat := r.lines.head?

/-- Modelled from the spec: building a `Rectangle` over existing sketch
lines with `construction=True` marks each of those lines as construction
geometry (rectangle.py is not under src; the spec calls the sketch wrapper
the component that converts boundary edges to construction geometry). -/
def rectangle_events (lineIdxs : List Nat) (construction : Bool) : List SkEv :=
  if construction then lineIdxs.map SkEv.setConstruction else []

/-- State saved by `Sketch.__init__`: the face-line rectangle, the border
rectangle built from the projected lines, and the saved references. -/
structure SketchState where
  face_lines : RectWrap
  border : RectWrap
  reference_points : List Nat
  reference_line : Option Nat
deriving DecidableEq, Repr

/-- Trace and resulting state of `Sketch.__init__` (sketch.py lines 12-36):
add a sketch on the face, set its name, wrap `lines[0:4]` as a construction
rectangle, project the face `edges[0:4]` into the sketch, wrap the
projected `lines[4:8]` as a construction rectangle, and save
`reference_points` and `reference_line` from that border rectangle. -/
def sketch_init (name : String) : List SkEv × SketchState :=
  let face_lines : RectWrap := ⟨[0, 1, 2, 3]⟩
  let border : RectWrap := ⟨[4, 5, 6, 7]⟩
  (SkEv.sketchAdd :: SkEv.setSketchName name ::
     (rectangle_events face_lines.lines true
       ++ (List.range 4).map SkEv.projectEdge
       ++ rectangle_events border.lines true),
   { face_lines := face_lines, border := border,
     reference_points := border.reference_points,
     reference_line := border.reference_line })

/-- The extrude-cut event `draw_finger` issues for the finger profile. -/
def finger_cut_ev (m : Mgr) : Ev :=
  Ev.extrudeCut (m.name ++ " Finger Cut Extrude")
    (ExtrudeExtent.distanceExtent (-pyAbs (m.params.depth * 10)))

/-- Host calls that belong to the corner-notch work of `draw_corner`:
drawing either corner rectangle, the corner extrude-cut, or the corner
pattern. -/
def corner_op (m : Mgr) (e : Ev) : Prop :=
  e = Ev.addRect "left_corner" ∨ e = Ev.addRect "right_corner" ∨
  e = Ev.extrudeCut (m.name ++ " Corner Cut Extrude")
        (ExtrudeExtent.distanceExtent (-pyAbs (m.params.depth * 10))) ∨
  e = Ev.patternAdd (m.name ++ " Corner Duplicate Pattern")

/-- Event `a` occurs strictly before event `b` somewhere in trace `t`. -/
def precedes (a b : Ev) (t : List Ev) : Prop :=
  ∃ i j : Nat, i < j ∧ t.get? i = some a ∧ t.get? j = some b

/-- Whether a trace contains a `setDirectionTwo` call. -/
def hasSetDirectionTwo : List Ev → Bool
  | [] => false
  | Ev.setDirectionTwo _ _ :: _ => true
  | _ :: rest => hasSetDirectionTwo rest

/-- Orientations carried by the constraint and dimension events of a trace,
in order. -/
def orientsOf : List Ev → List Orient
  | [] => []
  | Ev.addOrientConstraint o _ :: rest => o :: orientsOf rest
  | Ev.addDistanceDim _ o :: rest => o :: orientsOf rest
  | _ :: rest => orientsOf rest

/-! Helper lemmas shared by the claim theorems. -/

theorem string_append_left_cancel {s t u : String} (h : s ++ t = s ++ u) : t = u := by
  have hd := congrArg String.data h
  rw [String.data_append, String.data_append] at hd
  exact String.ext (List.append_cancel_left hd)

theorem cut_names_ne (s : String) :
    s ++ " Corner Cut Extrude" ≠ s ++ " Finger Cut Extrude" := fun h =>
  absurd (string_append_left_cancel h) (by decide)

theorem pattern_names_ne (s : String) :
    s ++ " Corner Duplicate Pattern" ≠ s ++ " Finger Duplicate Pattern" := fun h =>
  absurd (string_append_left_cancel h) (by decide)

theorem pyAbs_nonneg (q : ℚ) : 0 ≤ pyAbs q := by
  unfold pyAbs
  split <;> linarith

theorem corners_eq : constrain_vertical_corners = constrain_horizontal_corners := by
  decide

theorem not_precedes_of_split {a b : Ev} {F R : List Ev}
    (ha : a ∉ F) (hb : b ∉ R) : ¬ precedes a b (F ++ R) := by
  rintro ⟨i, j, hij, hi, hj⟩
  rcases lt_or_ge i F.length with hlt | hge
  · rw [List.get?_append hlt] at hi
    exact ha (List.get?_mem hi)
  · have hjge : F.length ≤ j := le_of_lt (lt_of_le_of_lt hge hij)
    rw [List.get?_append_right hjge] at hj
    exact hb (List.get?_mem hj)

theorem precedes_of_mem_split {a b : Ev} {F R : List Ev}
    (ha : a ∈ F) (hb : b ∈ R) : precedes a b (F ++ R) := by
  obtain ⟨i, hi⟩ := List.get?_of_mem ha
  obtain ⟨j, hj⟩ := List.get?_of_mem hb
  have hilt : i < F.length := (List.get?_eq_some.mp hi).1
  refine ⟨i, F.length + j, by omega, ?_, ?_⟩
  · rw [List.get?_append hilt]
    exact hi
  · rw [List.get?_append_right (by omega)]
    simpa using hj

theorem duplicate_primary_bad {params : FingerParams} {name : String}
    {quantity distance squantity : ℚ} {secondary : Option AxisRef}
    (primary : Option AxisRef)
    (h : primary = none ∨ ∃ p, primary = some p ∧ p.isValid = false) :
    duplicate params name quantity distance squantity primary secondary
      = ([], some Err.primaryAxisMissing) := by
  rcases h with rfl | ⟨p, rfl, hp⟩
  · simp [duplicate]
  · simp [duplicate, hp]

theorem mem_duplicate_fst {params : FingerParams} {name : String}
    {quantity distance squantity : ℚ} {primary secondary : Option AxisRef} {e : Ev}
    (he : e ∈ (duplicate params name quantity distance squantity primary secondary).1) :
    (∃ a b, e = Ev.patternCreateInput a b) ∨ (∃ a b, e = Ev.setDirectionTwo a b)
    ∨ e = Ev.patternAdd name ∨ ∃ b, e = Ev.messageBox b := by
  cases primary with
  | none => simp [duplicate] at he
  | some p =>
    cases hv : p.isValid with
    | false => simp [duplicate, hv] at he
    | true =>
      cases secondary with
      | none =>
        simp [duplicate, hv, Option.any] at he
        exact Or.inl ⟨_, _, he⟩
      | some s =>
        by_cases hc : 0 < params.distance ∧ s.isValid = true
        · simp [duplicate, hv, Option.any, hc] at he
          rcases he with rfl | rfl | rfl
          · exact Or.inl ⟨_, _, rfl⟩
          · exact Or.inr (Or.inl ⟨_, _, rfl⟩)
          · exact Or.inr (Or.inr (Or.inl rfl))
        · simp [duplicate, hv, Option.any, hc] at he
          rcases he with rfl | rfl | rfl
          · exact Or.inl ⟨_, _, rfl⟩
          · exact Or.inr (Or.inr (Or.inr ⟨_, rfl⟩))
          · exact Or.inr (Or.inr (Or.inl rfl))

theorem duplicate_ok_patternAdd {params : FingerParams} {name : String}
    {quantity distance squantity : ℚ} {primary secondary : Option AxisRef}
    (h : (duplicate params name quantity distance squantity primary secondary).2 = none) :
    Ev.patternAdd name
      ∈ (duplicate params name quantity distance squantity primary secondary).1 := by
  cases primary with
  | none => simp [duplicate] at h
  | some p =>
    cases hv : p.isValid with
    | false => simp [duplicate, hv] at h
    | true =>
      cases secondary with
      | none => simp [duplicate, hv, Option.any] at h
      | some s =>
        by_cases hc : 0 < params.distance ∧ s.isValid = true
        · simp [duplicate, hv, Option.any, hc]
        · simp [duplicate, hv, Option.any, hc]

theorem mem_draw_finger_fst {m : Mgr} {e : Ev} (he : e ∈ (draw_finger m).1) :
    e = Ev.addRect "finger" ∨ e ∈ constrain_finger m.border.is_vertical
    ∨ e = finger_cut_ev m
    ∨ (∃ a b, e = Ev.patternCreateInput a b) ∨ (∃ a b, e = Ev.setDirectionTwo a b)
    ∨ e = Ev.patternAdd (m.name ++ " Finger Duplicate Pattern")
    ∨ ∃ b, e = Ev.messageBox b := by
  simp only [draw_finger, extrude, finger_cut_ev, List.mem_cons, List.mem_append,
    List.mem_singleton, List.not_mem_nil, or_false, false_or] at he ⊢
  rcases he with ((rfl | h) | rfl) | h
  · exact Or.inl rfl
  · exact Or.inr (Or.inl h)
  · exact Or.inr (Or.inr (Or.inl rfl))
  · exact Or.inr (Or.inr (Or.inr (mem_duplicate_fst h)))

theorem mem_draw_corner_fst {m : Mgr} {e : Ev} (he : e ∈ (draw_corner m).1) :
    e = Ev.addRect "left_corner" ∨ e = Ev.addRect "right_corner"
    ∨ e = Ev.extrudeCut (m.name ++ " Corner Cut Extrude")
            (ExtrudeExtent.distanceExtent (-pyAbs (m.params.depth * 10)))
    ∨ (∃ a b, e = Ev.patternCreateInput a b) ∨ (∃ a b, e = Ev.setDirectionTwo a b)
    ∨ e = Ev.patternAdd (m.name ++ " Corner Duplicate Pattern")
    ∨ (∃ b, e = Ev.messageBox b)
    ∨ e ∈ constrain_horizontal_corners := by
  simp only [draw_corner] at he
  split at he <;>
    simp only [extrude, List.mem_cons, List.mem_append, List.mem_singleton,
      List.not_mem_nil, or_false, false_or] at he
  · rcases he with ((rfl | rfl) | rfl) | h
    · exact Or.inl rfl
    · exact Or.inr (Or.inl rfl)
    · exact Or.inr (Or.inr (Or.inl rfl))
    · rcases mem_duplicate_fst h with h | h | h | h
      · exact Or.inr (Or.inr (Or.inr (Or.inl h)))
      · exact Or.inr (Or.inr (Or.inr (Or.inr (Or.inl h))))
      · exact Or.inr (Or.inr (Or.inr (Or.inr (Or.inr (Or.inl h)))))
      · exact Or.inr (Or.inr (Or.inr (Or.inr (Or.inr (Or.inr (Or.inl h))))))
  · rcases he with (((rfl | rfl) | rfl) | h) | h
    · exact Or.inl rfl
    · exact Or.inr (Or.inl rfl)
    · exact Or.inr (Or.inr (Or.inl rfl))
    · rcases mem_duplicate_fst h with h | h | h | h
      · exact Or.inr (Or.inr (Or.inr (Or.inl h)))
      · exact Or.inr (Or.inr (Or.inr (Or.inr (Or.inl h))))
      · exact Or.inr (Or.inr (Or.inr (Or.inr (Or.inr (Or.inl h)))))
      · exact Or.inr (Or.inr (Or.inr (Or.inr (Or.inr (Or.inr (Or.inl h))))))
    · refine Or.inr (Or.inr (Or.inr (Or.inr (Or.inr (Or.inr (Or.inr ?_))))))
      split at h
      · rw [corners_eq] at h
        exact h
      · exact h

theorem addRect_not_mem_constrain_finger (v : Bool) (t : String) :
    Ev.addRect t ∉ constrain_finger v := by
  cases v <;> simp [constrain_finger]

theorem extrudeCut_not_mem_constrain_finger (v : Bool) (n : String) (x : ExtrudeExtent) :
    Ev.extrudeCut n x ∉ constrain_finger v := by
  cases v <;> simp [constrain_finger]

theorem patternAdd_not_mem_constrain_finger (v : Bool) (n : String) :
    Ev.patternAdd n ∉ constrain_finger v := by
  cases v <;> simp [constrain_finger]

theorem modifierCall_not_mem_constrain_finger (v : Bool) :
    Ev.modifierCall ∉ constrain_finger v := by
  cases v <;> decide

theorem timelineGroup_not_mem_constrain_finger (v : Bool) (n : String) :
    Ev.timelineGroup n ∉ constrain_finger v := by
  cases v <;> simp [constrain_finger]

theorem addRect_not_mem_chc (t : String) :
    Ev.addRect t ∉ constrain_horizontal_corners := by
  simp [constrain_horizontal_corners]

theorem extrudeCut_not_mem_chc (n : String) (x : ExtrudeExtent) :
    Ev.extrudeCut n x ∉ constrain_horizontal_corners := by
  simp [constrain_horizontal_corners]

theorem modifierCall_not_mem_chc : Ev.modifierCall ∉ constrain_horizontal_corners := by
  decide

theorem timelineGroup_not_mem_chc (n : String) :
    Ev.timelineGroup n ∉ constrain_horizontal_corners := by
  simp [constrain_horizontal_corners]

theorem addRect_mem_draw_finger {m : Mgr} {t : String}
    (h : Ev.addRect t ∈ (draw_finger m).1) : t = "finger" := by
  rcases mem_draw_finger_fst h with h | h | h | ⟨a, b, h⟩ | ⟨a, b, h⟩ | h | ⟨b, h⟩
  · injection h
  · exact absurd h (addRect_not_mem_constrain_finger _ _)
  · simp [finger_cut_ev] at h
  · simp at h
  · simp at h
  · simp at h
  · simp at h

theorem extrudeCut_mem_draw_finger {m : Mgr} {n : String} {x : ExtrudeExtent}
    (h : Ev.extrudeCut n x ∈ (draw_finger m).1) : n = m.name ++ " Finger Cut Extrude" := by
  rcases mem_draw_finger_fst h with h | h | h | ⟨a, b, h⟩ | ⟨a, b, h⟩ | h | ⟨b, h⟩
  · simp at h
  · exact absurd h (extrudeCut_not_mem_constrain_finger _ _ _)
  · simp only [finger_cut_ev] at h
    injection h with h1 h2
  · simp at h
  · simp at h
  · simp at h
  · simp at h

theorem patternAdd_mem_draw_finger {m : Mgr} {n : String}
    (h : Ev.patternAdd n ∈ (draw_finger m).1) : n = m.name ++ " Finger Duplicate Pattern" := by
  rcases mem_draw_finger_fst h with h | h | h | ⟨a, b, h⟩ | ⟨a, b, h⟩ | h | ⟨b, h⟩
  · simp at h
  · exact absurd h (patternAdd_not_mem_constrain_finger _ _)
  · simp [finger_cut_ev] at h
  · simp at h
  · simp at h
  · injection h
  · simp at h

theorem modifierCall_not_mem_draw_finger (m : Mgr) :
    Ev.modifierCall ∉ (draw_finger m).1 := by
  intro h
  rcases mem_draw_finger_fst h with h | h | h | ⟨a, b, h⟩ | ⟨a, b, h⟩ | h | ⟨b, h⟩
  · simp at h
  · exact modifierCall_not_mem_constrain_finger _ h
  · simp [finger_cut_ev] at h
  · simp at h
  · simp at h
  · simp at h
  · simp at h

theorem timelineGroup_not_mem_draw_finger (m : Mgr) (n : String) :
    Ev.timelineGroup n ∉ (draw_finger m).1 := by
  intro h
  rcases mem_draw_finger_fst h with h | h | h | ⟨a, b, h⟩ | ⟨a, b, h⟩ | h | ⟨b, h⟩
  · simp at h
  · exact timelineGroup_not_mem_constrain_finger _ _ h
  · simp [finger_cut_ev] at h
  · simp at h
  · simp at h
  · simp at h
  · simp at h

theorem extrudeCut_mem_draw_corner {m : Mgr} {n : String} {x : ExtrudeExtent}
    (h : Ev.extrudeCut n x ∈ (draw_corner m).1) : n = m.name ++ " Corner Cut Extrude" := by
  rcases mem_draw_corner_fst h with h | h | h | ⟨a, b, h⟩ | ⟨a, b, h⟩ | h | ⟨b, h⟩ | h
  · simp at h
  · simp at h
  · injection h with h1 h2
  · simp at h
  · simp at h
  · simp at h
  · simp at h
  · exact absurd h (extrudeCut_not_mem_chc _ _)

theorem modifierCall_not_mem_draw_corner (m : Mgr) :
    Ev.modifierCall ∉ (draw_corner m).1 := by
  intro h
  rcases mem_draw_corner_fst h with h | h | h | ⟨a, b, h⟩ | ⟨a, b, h⟩ | h | ⟨b, h⟩ | h
  · simp at h
  · simp at h
  · simp at h
  · simp at h
  · simp at h
  · simp at h
  · simp at h
  · exact modifierCall_not_mem_chc h

theorem timelineGroup_not_mem_draw_corner (m : Mgr) (n : String) :
    Ev.timelineGroup n ∉ (draw_corner m).1 := by
  intro h
  rcases mem_draw_corner_fst h with h | h | h | ⟨a, b, h⟩ | ⟨a, b, h⟩ | h | ⟨b, h⟩ | h
  · simp at h
  · simp at h
  · simp at h
  · simp at h
  · simp at h
  · simp at h
  · simp at h
  · exact timelineGroup_not_mem_chc _ h

theorem finger_cut_not_mem_draw_corner (m : Mgr) :
    finger_cut_ev m ∉ (draw_corner m).1 := by
  intro h
  simp only [finger_cut_ev] at h
  exact cut_names_ne m.name (extrudeCut_mem_draw_corner h).symm

theorem corner_op_not_mem_draw_finger {m : Mgr} {e : Ev} (hc : corner_op m e) :
    e ∉ (draw_finger m).1 := by
  intro he
  rcases hc with rfl | rfl | rfl | rfl
  · exact absurd (addRect_mem_draw_finger he) (by decide)
  · exact absurd (addRect_mem_draw_finger he) (by decide)
  · exact cut_names_ne m.name (extrudeCut_mem_draw_finger he)
  · exact pattern_names_ne m.name (patternAdd_mem_draw_finger he)

theorem draw_trace_split (m : Mgr) :
    ∃ R, (draw m).1 = (draw_finger m).1 ++ R
      ∧ ∀ e ∈ R, e ∈ (draw_corner m).1 ∨ e = Ev.modifierCall
          ∨ e = Ev.timelineGroup (m.name ++ " Finger Group") := by
  simp only [draw]
  split
  · exact ⟨[], by simp, by simp⟩
  · split
    · refine ⟨(if m.params.offset ≠ 0 ∧ m.inputs.tab_first = false
          then draw_corner m else ([], none)).1, rfl, ?_⟩
      intro e he
      split at he
      · exact Or.inl he
      · simp at he
    · refine ⟨(if m.params.offset ≠ 0 ∧ m.inputs.tab_first = false
          then draw_corner m else ([], none)).1
          ++ (if m.inputs.parametric = false then [Ev.modifierCall] else [])
          ++ [Ev.timelineGroup (m.name ++ " Finger Group")], ?_, ?_⟩
      · simp [List.append_assoc]
      · intro e he
        rcases List.mem_append.mp he with he | he
        · rcases List.mem_append.mp he with he | he
          · split at he
            · exact Or.inl he
            · simp at he
          · split at he
            · simp only [List.mem_singleton] at he
              exact Or.inr (Or.inl he)
            · simp at he
        · simp only [List.mem_singleton] at he
          exact Or.inr (Or.inr he)

/-! Concrete fixtures used by the witnesses. -/

/-- Concrete manager with valid primary and secondary axes, nonzero corner
offset, `tab_first = false` and `parametric = false`. -/
def mgrW : Mgr :=
  { name := "Panel"
    params := { start := 1, finger_length := 2, notches := 3, pattern_distance := 4,
                distance := 5, offset := 1, depth := 1 }
    inputs := { tab_first := false, parametric := false, interior := 2 }
    border := { is_vertical := false }
    primary := some { isValid := true }
    secondary := some { isValid := true } }

/-- Concrete manager whose primary axis reference is absent. -/
def mgrNoPrimary : Mgr := { mgrW with primary := none }

/-- Concrete parameter record with depth 1. -/
def paramsDepth1 : FingerParams :=
  { start := 0, finger_length := 0, notches := 0, pattern_distance := 0,
    distance := 0, offset := 0, depth := 1 }

/-! Claim theorems. -/

/-- C1: for every call to `FingerManager.duplicate`, the distinct local
error `PrimaryAxisMissing` is raised if and only if the primary axis
reference is missing (falsy) or has been invalidated (`isValid` false);
under a valid primary axis this error is never raised. -/
theorem duplicate_primary_axis_guard
    (params : FingerParams) (name : String) (quantity distance squantity : ℚ)
    (primary secondary : Option AxisRef) :
    (duplicate params name quantity distance squantity primary secondary).2
        = some Err.primaryAxisMissing
    ↔ (primary = none ∨ ∃ p, primary = some p ∧ p.isValid = false) := by
  cases primary with
  | none => simp [duplicate]
  | some p =>
    cases hv : p.isValid with
    | false => simp [duplicate, hv]
    | true =>
      constructor
      · intro h
        cases secondary with
        | none => simp [duplicate, hv, Option.any] at h
        | some s =>
          by_cases hc : 0 < params.distance ∧ s.isValid = true <;>
            simp [duplicate, hv, Option.any, hc] at h
      · rintro (h | ⟨p2, hp2, hv2⟩)
        · simp at h
        · obtain rfl : p2 = p := by
            injection hp2 with h'
            exact h'.symm
          rw [hv] at hv2
          exact absurd hv2 (by decide)

/-- C5: in `FingerManager.duplicate`, a present but invalid secondary axis
reference is host-reported through the diagnostic message box: no local
error is raised, no second pattern direction is set, and a second direction
is only ever set when the secondary reference is present and valid. -/
theorem duplicate_secondary_invalid_host_reported
    (params : FingerParams) (name : String) (quantity distance squantity : ℚ)
    (p s : AxisRef) (hp : p.isValid = true) (hs : s.isValid = false) :
    ((duplicate params name quantity distance squantity (some p) (some s)).2 = none
      ∧ Ev.messageBox false
          ∈ (duplicate params name quantity distance squantity (some p) (some s)).1
      ∧ hasSetDirectionTwo
          (duplicate params name quantity distance squantity (some p) (some s)).1 = false)
    ∧ ∀ secondary : Option AxisRef,
        hasSetDirectionTwo
          (duplicate params name quantity distance squantity (some p) secondary).1 = true →
        ∃ s2, secondary = some s2 ∧ s2.isValid = true := by
  constructor
  · have hc : ¬(0 < params.distance ∧ s.isValid = true) := by simp [hs]
    refine ⟨?_, ?_, ?_⟩ <;>
      simp [duplicate, hp, Option.any, hc, hs, hasSetDirectionTwo]
  · intro secondary hsd
    cases secondary with
    | none => simp [duplicate, hp, Option.any, hasSetDirectionTwo] at hsd
    | some s2 =>
      by_cases hc2 : 0 < params.distance ∧ s2.isValid = true
      · exact ⟨s2, rfl, hc2.2⟩
      · simp [duplicate, hp, Option.any, hc2, hasSetDirectionTwo] at hsd

theorem duplicate_secondary_invalid_host_reported_witness :
    (AxisRef.mk true).isValid = true ∧ (AxisRef.mk false).isValid = false
    ∧ (duplicate mgrW.params "P" 1 1 2 (some (AxisRef.mk true))
          (some (AxisRef.mk false))).2 = none :=
  ⟨rfl, rfl,
    (duplicate_secondary_invalid_host_reported mgrW.params "P" 1 1 2
      (AxisRef.mk true) (AxisRef.mk false) rfl rfl).1.1⟩

/-- C10: with a positive pattern distance, a valid primary axis and an
absent (`None`) secondary reference, `FingerManager.duplicate` reaches the
fallback branch, whose `secondary.isValid` dereference fails with an
unhandled `AttributeError` before any message box is shown; with a
secondary object present no `AttributeError` occurs. -/
theorem duplicate_secondary_none_attribute_error
    (params : FingerParams) (name : String) (quantity distance squantity : ℚ)
    (p : AxisRef) (hp : p.isValid = true) (hd : 0 < params.distance) :
    duplicate params name quantity distance squantity (some p) none
      = ([Ev.patternCreateInput quantity distance], some Err.attributeError)
    ∧ ∀ s : AxisRef,
        (duplicate params name quantity distance squantity (some p) (some s)).2
          ≠ some Err.attributeError := by
  constructor
  · simp [duplicate, hp, Option.any]
  · intro s
    by_cases hc : 0 < params.distance ∧ s.isValid = true <;>
      simp [duplicate, hp, Option.any, hc]

theorem duplicate_secondary_none_attribute_error_witness :
    (AxisRef.mk true).isValid = true ∧ 0 < mgrW.params.distance
    ∧ duplicate mgrW.params "P" 1 1 2 (some (AxisRef.mk true)) none
        = ([Ev.patternCreateInput 1 1], some Err.attributeError) :=
  ⟨rfl, by decide,
    (duplicate_secondary_none_attribute_error mgrW.params "P" 1 1 2
      (AxisRef.mk true) rfl (by decide)).1⟩

/-- C6 (amended): every extrude-cut `FingerManager.extrude` issues carries a
finite one-directional distance extent of value `-abs(depth * 10)` — a
nonpositive finite depth — never a through-body extent. -/
theorem extrude_uses_finite_distance_extent
    (params : FingerParams) (name : String) (ext : ExtrudeExtent)
    (h : Ev.extrudeCut name ext ∈ extrude params name) :
    ext = ExtrudeExtent.distanceExtent (-pyAbs (params.depth * 10))
    ∧ ext ≠ ExtrudeExtent.throughAllExtent
    ∧ ∃ d : ℚ, ext = ExtrudeExtent.distanceExtent d ∧ d ≤ 0 := by
  simp only [extrude, List.mem_singleton] at h
  injection h with h1 h2
  subst h2
  refine ⟨rfl, by simp, -pyAbs (params.depth * 10), rfl, ?_⟩
  have := pyAbs_nonneg (params.depth * 10)
  linarith

theorem extrude_uses_finite_distance_extent_witness :
    Ev.extrudeCut "X" (ExtrudeExtent.distanceExtent (-pyAbs (paramsDepth1.depth * 10)))
        ∈ extrude paramsDepth1 "X"
    ∧ ExtrudeExtent.distanceExtent (-pyAbs (paramsDepth1.depth * 10))
        ≠ ExtrudeExtent.throughAllExtent :=
  ⟨List.mem_singleton.mpr rfl,
    (extrude_uses_finite_distance_extent paramsDepth1 "X"
      (ExtrudeExtent.distanceExtent (-pyAbs (paramsDepth1.depth * 10)))
      (List.mem_singleton.mpr rfl)).2.1⟩

/-- C6 counterexample: at depth 1 the extrude-cut passed to the host has the
finite distance extent −10; it does not span the whole body. -/
theorem extrude_not_through_body_cx :
    extrude paramsDepth1 "X"
      = [Ev.extrudeCut "X" (ExtrudeExtent.distanceExtent (-10))]
    ∧ Ev.extrudeCut "X" ExtrudeExtent.throughAllExtent ∉ extrude paramsDepth1 "X" := by
  constructor
  · norm_num [extrude, paramsDepth1, pyAbs]
  · simp [extrude]

/-- C3 (amended): for every border orientation, point, length and width the
vertical-vs-horizontal branch swaps which axis receives which offset
(vertical: width on x and length on y; horizontal: length on x and width on
y, z unchanged) and swaps every constraint and dimension orientation
applied to the finger rectangle; the corner rectangles, however, receive
the identical constraint sequence in both branches. -/
theorem orientation_branch_swap :
    (∀ (point : Point3) (length width : ℚ),
        offset_point true point length width
            = { x := point.x + width, y := point.y + length, z := point.z }
        ∧ offset_point false point length width
            = { x := point.x + length, y := point.y + width, z := point.z })
    ∧ orientsOf (constrain_finger true)
        = (orientsOf (constrain_finger false)).map Orient.swap
    ∧ constrain_vertical_corners = constrain_horizontal_corners := by
  exact ⟨fun point length width => ⟨rfl, rfl⟩, by decide, corners_eq⟩

/-- C3 counterexample: the corner-constraint routine of the vertical branch
issues exactly the events of the horizontal branch — a `HorizontalDimension`
dimension and a horizontal constraint on the corner bottom line, with no
vertically-oriented corner dimension — so the orientation swap does not
extend to the corner rectangles. -/
theorem corner_constraints_not_swapped_cx :
    constrain_vertical_corners = constrain_horizontal_corners
    ∧ Ev.addDistanceDim "left_dimension" Orient.horizontal ∈ constrain_vertical_corners
    ∧ Ev.addOrientConstraint Orient.horizontal "left_corner.bottom.line"
        ∈ constrain_vertical_corners
    ∧ Ev.addDistanceDim "left_dimension" Orient.vertical ∉ constrain_vertical_corners := by
  decide

/-- C8: `Sketch.__init__` creates the face-bound sketch, names it, marks the
four face-boundary lines as construction geometry, projects the four face
edges into the sketch, marks the four projected border lines as
construction geometry, and saves the border reference points and
reference line. -/
theorem sketch_init_trace (name : String) :
    (sketch_init name).1
      = [SkEv.sketchAdd, SkEv.setSketchName name,
         SkEv.setConstruction 0, SkEv.setConstruction 1,
         SkEv.setConstruction 2, SkEv.setConstruction 3,
         SkEv.projectEdge 0, SkEv.projectEdge 1,
         SkEv.projectEdge 2, SkEv.projectEdge 3,
         SkEv.setConstruction 4, SkEv.setConstruction 5,
         SkEv.setConstruction 6, SkEv.setConstruction 7]
    ∧ (sketch_init name).2.face_lines = RectWrap.mk [0, 1, 2, 3]
    ∧ (sketch_init name).2.border = RectWrap.mk [4, 5, 6, 7]
    ∧ (sketch_init name).2.reference_points
        = ((sketch_init name).2.border).reference_points
    ∧ (sketch_init name).2.reference_line
        = ((sketch_init name).2.border).reference_line := by
  refine ⟨?_, rfl, rfl, rfl, rfl⟩
  rfl

theorem left_corner_mem_draw_corner (m : Mgr) :
    Ev.addRect "left_corner" ∈ (draw_corner m).1 := by
  simp only [draw_corner]
  split <;> simp

theorem draw_ok_decomp (m : Mgr) (h : (draw m).2 = none) :
    (draw_finger m).2 = none
    ∧ (draw m).1 = (draw_finger m).1
      ++ (if m.params.offset ≠ 0 ∧ m.inputs.tab_first = false
            then draw_corner m else ([], none)).1
      ++ (if m.inputs.parametric = false then [Ev.modifierCall] else [])
      ++ [Ev.timelineGroup (m.name ++ " Finger Group")]
    ∧ (if m.params.offset ≠ 0 ∧ m.inputs.tab_first = false
            then draw_corner m else ([], none)).2 = none := by
  have hfin : (draw_finger m).2 = none := by
    cases hfe : (draw_finger m).2 with
    | none => rfl
    | some e =>
      simp only [draw, hfe] at h
      exact h
  have hcor : (if m.params.offset ≠ 0 ∧ m.inputs.tab_first = false
      then draw_corner m else ([], none)).2 = none := by
    cases hce : (if m.params.offset ≠ 0 ∧ m.inputs.tab_first = false
        then draw_corner m else ([], none)).2 with
    | none => rfl
    | some e =>
      simp only [draw, hfin, hce] at h
      exact h
  refine ⟨hfin, ?_, hcor⟩
  simp only [draw, hfin, hcor]

/-- C7: when the primary pattern axis is missing or invalidated, `draw`
propagates `PrimaryAxisMissing` and its trace is exactly the host calls
already issued for the finger (rectangle, constraints and dimensions,
extrude-cut), so nothing is retried, undone or compensated, and neither the
pattern, the modifier call, nor the timeline group is ever created. -/
theorem draw_primary_failure_no_recovery (m : Mgr)
    (h : m.primary = none ∨ ∃ p, m.primary = some p ∧ p.isValid = false) :
    (draw m).2 = some Err.primaryAxisMissing
    ∧ (draw m).1 = Ev.addRect "finger" :: (constrain_finger m.border.is_vertical
        ++ extrude m.params (m.name ++ " Finger Cut Extrude"))
    ∧ Ev.timelineGroup (m.name ++ " Finger Group") ∉ (draw m).1
    ∧ Ev.modifierCall ∉ (draw m).1
    ∧ Ev.patternAdd (m.name ++ " Finger Duplicate Pattern") ∉ (draw m).1 := by
  have hdup : duplicate m.params (m.name ++ " Finger Duplicate Pattern")
      m.params.notches m.params.pattern_distance (m.inputs.interior + 2)
      m.primary m.secondary = ([], some Err.primaryAxisMissing) :=
    duplicate_primary_bad m.primary h
  have hf : draw_finger m
      = (Ev.addRect "finger" :: (constrain_finger m.border.is_vertical
          ++ extrude m.params (m.name ++ " Finger Cut Extrude")),
         some Err.primaryAxisMissing) := by
    simp only [draw_finger]
    rw [hdup]
    simp
  have hd : draw m
      = (Ev.addRect "finger" :: (constrain_finger m.border.is_vertical
          ++ extrude m.params (m.name ++ " Finger Cut Extrude")),
         some Err.primaryAxisMissing) := by
    simp only [draw, hf]
  rw [hd]
  refine ⟨rfl, rfl, ?_, ?_, ?_⟩
  · intro hmem
    rcases List.mem_cons.mp hmem with h' | h'
    · simp at h'
    · rcases List.mem_append.mp h' with h' | h'
      · exact timelineGroup_not_mem_constrain_finger _ _ h'
      · simp [extrude] at h'
  · intro hmem
    rcases List.mem_cons.mp hmem with h' | h'
    · simp at h'
    · rcases List.mem_append.mp h' with h' | h'
      · exact modifierCall_not_mem_constrain_finger _ h'
      · simp [extrude] at h'
  · intro hmem
    rcases List.mem_cons.mp hmem with h' | h'
    · simp at h'
    · rcases List.mem_append.mp h' with h' | h'
      · exact patternAdd_not_mem_constrain_finger _ _ h'
      · simp [extrude] at h'

theorem draw_primary_failure_no_recovery_witness :
    (mgrNoPrimary.primary = none
      ∨ ∃ p, mgrNoPrimary.primary = some p ∧ p.isValid = false)
    ∧ (draw mgrNoPrimary).2 = some Err.primaryAxisMissing :=
  ⟨Or.inl rfl, (draw_primary_failure_no_recovery mgrNoPrimary (Or.inl rfl)).1⟩

/-- C9: in a completed run of `draw`, the parameter-modifier call — which
replaces the literal dimension values with live named-parameter
expressions — is issued exactly when the `parametric` input flag is
false. -/
theorem draw_modifier_iff_not_parametric (m : Mgr) (h : (draw m).2 = none) :
    Ev.modifierCall ∈ (draw m).1 ↔ m.inputs.parametric = false := by
  obtain ⟨hfin, htr, hcor⟩ := draw_ok_decomp m h
  constructor
  · intro hmem
    by_cases hpar : m.inputs.parametric = false
    · exact hpar
    · exfalso
      rw [htr, if_neg hpar] at hmem
      rcases List.mem_append.mp hmem with hmem | hmem
      · rcases List.mem_append.mp hmem with hmem | hmem
        · rcases List.mem_append.mp hmem with hmem | hmem
          · exact modifierCall_not_mem_draw_finger m hmem
          · split at hmem
            · exact modifierCall_not_mem_draw_corner m hmem
            · simp at hmem
        · simp at hmem
      · simp at hmem
  · intro hpar
    rw [htr, if_pos hpar]
    exact List.mem_append_left _
      (List.mem_append_right _ (List.mem_singleton.mpr rfl))

theorem draw_modifier_iff_not_parametric_witness :
    (draw mgrW).2 = none
    ∧ (Ev.modifierCall ∈ (draw mgrW).1 ↔ mgrW.inputs.parametric = false) :=
  ⟨by decide, draw_modifier_iff_not_parametric mgrW (by decide)⟩

/-- C2: every completed run of `draw` issues the finger host calls in the
fixed order rectangle → constraints and dimensions → extrude-cut → pattern
duplicate; the parametric-replacement call, when it runs, comes after the
pattern and is the final call before the timeline group, which closes the
trace. -/
theorem draw_finger_call_order (m : Mgr) (h : (draw m).2 = none) :
    (∃ t, (draw m).1
        = (Ev.addRect "finger" :: (constrain_finger m.border.is_vertical
            ++ extrude m.params (m.name ++ " Finger Cut Extrude"))) ++ t
        ∧ Ev.patternAdd (m.name ++ " Finger Duplicate Pattern") ∈ t)
    ∧ (draw m).1.getLast? = some (Ev.timelineGroup (m.name ++ " Finger Group"))
    ∧ (m.inputs.parametric = false →
        ∃ u, (draw m).1
            = u ++ [Ev.modifierCall, Ev.timelineGroup (m.name ++ " Finger Group")]
          ∧ Ev.patternAdd (m.name ++ " Finger Duplicate Pattern") ∈ u) := by
  obtain ⟨hfin, htr, hcor⟩ := draw_ok_decomp m h
  have hdup : (duplicate m.params (m.name ++ " Finger Duplicate Pattern")
      m.params.notches m.params.pattern_distance (m.inputs.interior + 2)
      m.primary m.secondary).2 = none := hfin
  have hp' : Ev.patternAdd (m.name ++ " Finger Duplicate Pattern")
      ∈ (duplicate m.params (m.name ++ " Finger Duplicate Pattern")
        m.params.notches m.params.pattern_distance (m.inputs.interior + 2)
        m.primary m.secondary).1 := duplicate_ok_patternAdd hdup
  have hsplit : (draw_finger m).1
      = (Ev.addRect "finger" :: (constrain_finger m.border.is_vertical
          ++ extrude m.params (m.name ++ " Finger Cut Extrude")))
        ++ (duplicate m.params (m.name ++ " Finger Duplicate Pattern")
          m.params.notches m.params.pattern_distance (m.inputs.interior + 2)
          m.primary m.secondary).1 := rfl
  have hfp : Ev.patternAdd (m.name ++ " Finger Duplicate Pattern")
      ∈ (draw_finger m).1 := by
    rw [hsplit]
    exact List.mem_append_right _ hp'
  refine ⟨?_, ?_, ?_⟩
  · refine ⟨(duplicate m.params (m.name ++ " Finger Duplicate Pattern")
        m.params.notches m.params.pattern_distance (m.inputs.interior + 2)
        m.primary m.secondary).1
      ++ ((if m.params.offset ≠ 0 ∧ m.inputs.tab_first = false
            then draw_corner m else ([], none)).1
        ++ ((if m.inputs.parametric = false then [Ev.modifierCall] else [])
          ++ [Ev.timelineGroup (m.name ++ " Finger Group")])), ?_, ?_⟩
    · rw [htr, hsplit]
      simp [List.append_assoc]
    · exact List.mem_append_left _ hp'
  · rw [htr]
    simp [List.getLast?_append]
  · intro hpar
    refine ⟨(draw_finger m).1
      ++ (if m.params.offset ≠ 0 ∧ m.inputs.tab_first = false
            then draw_corner m else ([], none)).1, ?_, ?_⟩
    · rw [htr, if_pos hpar]
      simp [List.append_assoc]
    · exact List.mem_append_left _ hfp

theorem draw_finger_call_order_witness :
    (draw mgrW).2 = none
    ∧ (draw mgrW).1.getLast?
        = some (Ev.timelineGroup (mgrW.name ++ " Finger Group")) :=
  ⟨by decide, (draw_finger_call_order mgrW (by decide)).2.1⟩

/-- C4 (amended): corner notches are never drawn before the finger cut: in
a completed run with nonzero corner offset and `tab_first` false the corner
rectangles are drawn strictly after the finger extrude-cut, and in every
other completed run no corner rectangle is drawn at all. -/
theorem corner_notches_after_finger_cut (m : Mgr) (h : (draw m).2 = none) :
    (m.params.offset ≠ 0 ∧ m.inputs.tab_first = false →
        precedes (finger_cut_ev m) (Ev.addRect "left_corner") (draw m).1)
    ∧ (¬(m.params.offset ≠ 0 ∧ m.inputs.tab_first = false) →
        Ev.addRect "left_corner" ∉ (draw m).1
        ∧ Ev.addRect "right_corner" ∉ (draw m).1) := by
  obtain ⟨hfin, htr, hcor⟩ := draw_ok_decomp m h
  constructor
  · intro hcond
    rw [htr, if_pos hcond]
    have hassoc : (draw_finger m).1 ++ (draw_corner m).1
        ++ (if m.inputs.parametric = false then [Ev.modifierCall] else [])
        ++ [Ev.timelineGroup (m.name ++ " Finger Group")]
      = (draw_finger m).1 ++ ((draw_corner m).1
        ++ ((if m.inputs.parametric = false then [Ev.modifierCall] else [])
          ++ [Ev.timelineGroup (m.name ++ " Finger Group")])) := by
      simp [List.append_assoc]
    rw [hassoc]
    refine precedes_of_mem_split ?_ ?_
    · simp [draw_finger, extrude, finger_cut_ev]
    · exact List.mem_append_left _ (left_corner_mem_draw_corner m)
  · intro hncond
    have hgen : ∀ t : String, t ≠ "finger" → Ev.addRect t ∉ (draw m).1 := by
      intro t ht hmem
      rw [htr, if_neg hncond] at hmem
      rcases List.mem_append.mp hmem with hmem | hmem
      · rcases List.mem_append.mp hmem with hmem | hmem
        · rcases List.mem_append.mp hmem with hmem | hmem
          · exact ht (addRect_mem_draw_finger hmem)
          · simp at hmem
        · split at hmem <;> simp at hmem
      · simp at hmem
    exact ⟨hgen _ (by decide), hgen _ (by decide)⟩

theorem corner_notches_after_finger_cut_witness :
    (draw mgrW).2 = none
    ∧ (mgrW.params.offset ≠ 0 ∧ mgrW.inputs.tab_first = false →
        precedes (finger_cut_ev mgrW) (Ev.addRect "left_corner") (draw mgrW).1) :=
  ⟨by decide, (corner_notches_after_finger_cut mgrW (by decide)).1⟩

/-- C4 counterexample: there is no input at all for which a corner-notch
operation precedes the finger extrude-cut, refuting the claim that the
corner notches precede the finger cut for some inputs and follow it for
others. -/
theorem corner_never_precedes_finger_cut_cx :
    ¬ ((∃ (m : Mgr) (e : Ev), corner_op m e
          ∧ precedes e (finger_cut_ev m) (draw m).1)
       ∧ (∃ (m : Mgr) (e : Ev), corner_op m e
          ∧ precedes (finger_cut_ev m) e (draw m).1)) := by
  rintro ⟨⟨m, e, hc, hp⟩, -⟩
  obtain ⟨R, hR, hmem⟩ := draw_trace_split m
  rw [hR] at hp
  refine not_precedes_of_split (corner_op_not_mem_draw_finger hc) ?_ hp
  intro hin
  rcases hmem _ hin with h' | h' | h'
  · exact finger_cut_not_mem_draw_corner m h'
  · simp [finger_cut_ev] at h'
  · simp [finger_cut_ev] at h'

end TabGen
